import Mathlib

/-!
Verification of the navigation/indexing core of the Qurani repository
(`core_functions/quran_class.py`) against its natural-language specification.

Python strings are modelled as `List Char` (Python `len` counts code points,
matching `List.length` on `List Char`).  The SQLite verse table is modelled as
a `List Row` carried in the navigator state (mirroring `self.cursor`); a
`SELECT * FROM quran WHERE col = v` is modelled as a filter over that list in
storage order.  Fallible operations (SQL errors) return `Except`.
-/

namespace Qurani

/-- `leadsWith pat s` : `pat` is an initial segment of `s`
(the check Python `str.replace` performs at each scan position). -/
def leadsWith : List Char → List Char → Bool
  | [], _ => true
  | _ :: _, [] => false
  | a :: ps, b :: ss => a == b && leadsWith ps ss

/-- `containsSeq pat s` : `pat` occurs contiguously somewhere in `s`
(Python `pat in s`). -/
def containsSeq (pat : List Char) : List Char → Bool
  | [] => pat.isEmpty
  | c :: rest => leadsWith pat (c :: rest) || containsSeq pat rest

/-- Python `s.replace(pat, rep)`: scan left to right, replace every
(non-overlapping, leftmost-first) occurrence of `pat` by `rep`.
The source only ever calls this with a non-empty `pat`; the `pat = []`
guard is there solely for termination. -/
def replaceAll : List Char → List Char → List Char → List Char
  | [], _, _ => []
  | c :: rest, pat, rep =>
    if h : pat ≠ [] ∧ leadsWith pat (c :: rest) = true then
      rep ++ replaceAll ((c :: rest).drop pat.length) pat rep
    else
      c :: replaceAll rest pat rep
termination_by s _ _ => s.length
decreasing_by
  · simp only [List.length_drop]
    have hp : 0 < pat.length := List.length_pos.mpr h.1
    simp only [List.length_cons]
    omega
  · simp [Nat.lt_succ_self]

/-- Python `s.strip("\n")`: remove newline characters from both ends. -/
def stripNL (s : List Char) : List Char :=
  ((s.dropWhile (fun c => c = '\n')).reverse.dropWhile (fun c => c = '\n')).reverse

/-- The single-quote character (written via its code point to keep the source
free of a bare apostrophe). -/
def sqlQuote : Char := Char.ofNat 39

/-- One row of the `quran` table.  Field order follows the indices the code
uses on `SELECT *` rows: `row[0]` text, `row[1]` number (global verse number),
`row[2]` sura_name, `row[3]` sura_number, `row[4]` numberInSurah, plus the
four category coordinates used in `WHERE` filters. -/
structure Row where
  text : List Char
  number : Nat
  sura_name : List Char
  sura_number : Nat
  numberInSurah : Nat
  page : Nat
  hizb : Nat
  hizbQuarter : Nat
  juz : Nat
deriving DecidableEq, Repr

/-- The search pattern of the basmala replacement in `get_text`
(`"بِسْمِ اللَّهِ الرَّحْمَٰنِ الرَّحِيمِ "`, trailing space included). -/
def basmala_sp : List Char := "بِسْمِ اللَّهِ الرَّحْمَٰنِ الرَّحِيمِ ".data

/-- The replacement text (`"بِسْمِ اللَّهِ الرَّحْمَٰنِ الرَّحِيمِ\n"`). -/
def basmala_nl : List Char := "بِسْمِ اللَّهِ الرَّحْمَٰنِ الرَّحِيمِ\n".data

/-- The chapter-header line `f"{ayah[2]} {ayah[3]}\n|\n"` of `get_text`. -/
def header (a : Row) : List Char :=
  a.sura_name ++ " ".data ++ (toString a.sura_number).data ++ "\n|\n".data

/-- The per-verse text `ayah_text` built by one iteration of the `get_text`
loop: chapter header and basmala line-break for first verses, optional
verse-number suffix, separator (newline or space). -/
def renderAyah (shw ln : Bool) (a : Row) : List Char :=
  let t0 :=
    if a.numberInSurah = 1 then
      let t := header a ++ a.text
      if a.sura_number ≠ 1 then replaceAll t basmala_sp basmala_nl else t
    else a.text
  let t1 :=
    if shw then t0 ++ " (".data ++ (toString a.numberInSurah).data ++ ")".data
    else t0
  if ln then t1 ++ "\n".data else t1 ++ " ".data

/-- Modelled from the spec: class `AyahData` (`core_functions/ayah_data.py`)
is not under `src/`; per spec §4.1 it is an ordered list of
(verse global number, start offset, end offset) spans. -/
abbrev AyahData := List (Nat × Nat × Nat)

/-- Modelled from the spec: `AyahData.insert(verse_id, start, end)` appends
one span; the caller guarantees increasing, non-overlapping offsets. -/
def AyahData.insert (d : AyahData) (n s e : Nat) : AyahData := d ++ [(n, s, e)]

/-- Navigator state: the mutable attributes of `quran_mgr` set in `__init__`,
plus `db`, the verse table reachable through `self.cursor`. -/
structure QState where
  show_ayah_number : Bool := true
  aya_to_line : Bool := false
  current_pos : Int := 1
  max_pos : Int := 604
  type : Nat := 0
  data_list : List Row := []
  db : List Row := []
  text : List Char := []
  ayah_data : AyahData := []
deriving DecidableEq, Repr

/-- The loop of `get_text` over `self.data_list`, carrying the accumulated
text, the running offset `current_position`, and the `AyahData` under
construction. -/
def get_text_loop (shw ln : Bool) :
    List Row → List Char → Nat → AyahData → List Char × AyahData
  | [], text, _, acc => (text, acc)
  | ayah :: rest, text, pos, acc =>
    let t := renderAyah shw ln ayah
    get_text_loop shw ln rest (text ++ t) (pos + t.length)
      (acc.insert ayah.number pos (pos + t.length - 1))

/-- `quran_mgr.get_text`: returns the rendered blob; on a non-empty
`data_list` it also stores the stripped blob and the fresh `AyahData`;
on an empty `data_list` it returns `""` immediately, leaving every stored
attribute (including `ayah_data` and `text`) untouched. -/
def get_text (st : QState) : List Char × QState :=
  if st.data_list.isEmpty then ([], st)
  else
    let r := get_text_loop st.show_ayah_number st.aya_to_line st.data_list [] 0 []
    let stripped := stripNL r.1
    (stripped, { st with text := stripped, ayah_data := r.2 })

/-- `quran_mgr.get_surah`.  Note the source clamps `self.current_pos` to
`max_pos` but interpolates the raw `surah_number` argument into the SQL
filter. -/
def get_surah (st : QState) (surah_number : Int) : List Char × QState :=
  let st1 := { st with current_pos := surah_number, max_pos := 114, type := 1 }
  let st2 := { st1 with current_pos :=
    if st1.current_pos > st1.max_pos then st1.max_pos else st1.current_pos }
  get_text { st2 with
    data_list := st2.db.filter (fun r => (r.sura_number : Int) == surah_number) }

/-- `quran_mgr.get_hizb`. -/
def get_hizb (st : QState) (hizb_number : Int) : List Char × QState :=
  let st1 := { st with current_pos := hizb_number, max_pos := 60, type := 3 }
  let st2 := { st1 with current_pos :=
    if st1.current_pos > st1.max_pos then st1.max_pos else st1.current_pos }
  get_text { st2 with
    data_list := st2.db.filter (fun r => (r.hizb : Int) == hizb_number) }

/-- `quran_mgr.get_juzz`. -/
def get_juzz (st : QState) (juzz_number : Int) : List Char × QState :=
  let st1 := { st with current_pos := juzz_number, max_pos := 30, type := 4 }
  let st2 := { st1 with current_pos :=
    if st1.current_pos > st1.max_pos then st1.max_pos else st1.current_pos }
  get_text { st2 with
    data_list := st2.db.filter (fun r => (r.juz : Int) == juzz_number) }

/-- `quran_mgr.get_quarter`. -/
def get_quarter (st : QState) (quarter_number : Int) : List Char × QState :=
  let st1 := { st with current_pos := quarter_number, max_pos := 240, type := 2 }
  let st2 := { st1 with current_pos :=
    if st1.current_pos > st1.max_pos then st1.max_pos else st1.current_pos }
  get_text { st2 with
    data_list := st2.db.filter (fun r => (r.hizbQuarter : Int) == quarter_number) }

/-- `quran_mgr.get_page`. -/
def get_page (st : QState) (page_number : Int) : List Char × QState :=
  let st1 := { st with current_pos := page_number, max_pos := 604, type := 0 }
  let st2 := { st1 with current_pos :=
    if st1.current_pos > st1.max_pos then st1.max_pos else st1.current_pos }
  get_text { st2 with
    data_list := st2.db.filter (fun r => (r.page : Int) == page_number) }

/-- `quran_mgr.next`: empty text, untouched state, when
`current_pos >= max_pos`; otherwise increment and dispatch on `type`
(any `type` outside 0-3 falls to the `else` branch, `get_juzz`). -/
def next (st : QState) : List Char × QState :=
  if st.current_pos ≥ st.max_pos then ([], st)
  else
    let st1 := { st with current_pos := st.current_pos + 1 }
    if st1.type = 0 then get_page st1 st1.current_pos
    else if st1.type = 1 then get_surah st1 st1.current_pos
    else if st1.type = 2 then get_quarter st1 st1.current_pos
    else if st1.type = 3 then get_hizb st1 st1.current_pos
    else get_juzz st1 st1.current_pos

/-- `quran_mgr.back`: empty text, untouched state, when `current_pos <= 1`. -/
def back (st : QState) : List Char × QState :=
  if st.current_pos ≤ 1 then ([], st)
  else
    let st1 := { st with current_pos := st.current_pos - 1 }
    if st1.type = 0 then get_page st1 st1.current_pos
    else if st1.type = 1 then get_surah st1 st1.current_pos
    else if st1.type = 2 then get_quarter st1 st1.current_pos
    else if st1.type = 3 then get_hizb st1 st1.current_pos
    else get_juzz st1 st1.current_pos

/-- `quran_mgr.goto`: empty text, untouched state, when the argument exceeds
`max_pos`; otherwise set `current_pos` and dispatch on `type`. -/
def goto (st : QState) (g : Int) : List Char × QState :=
  if g > st.max_pos then ([], st)
  else
    let st1 := { st with current_pos := g }
    if st1.type = 0 then get_page st1 st1.current_pos
    else if st1.type = 1 then get_surah st1 st1.current_pos
    else if st1.type = 2 then get_quarter st1 st1.current_pos
    else if st1.type = 3 then get_hizb st1 st1.current_pos
    else get_juzz st1 st1.current_pos

/-- Python truthiness of an optional-integer argument (`False` is modelled as
`none`; `False` and `0` are falsy, every other integer truthy). -/
def pyTruthy : Option Int → Bool
  | none => false
  | some v => v != 0

/-- The integer a Python comparison sees for an optional-integer argument
(`False` compares as `0`). -/
def pyInt : Option Int → Int
  | none => 0
  | some v => v

/-- `result[0][0]` for the `select number from quran WHERE sura_number = s`
result list: the global number of the first returned row.  The code only
reads it in a branch where the list is provably non-empty (an empty list
would raise `IndexError`); the `[]` case is that unreachable branch. -/
def firstNumber : List Row → Nat
  | [] => 0
  | r :: _ => r.number

/-- The resolution of the lower bound in `get_range` (the `from_surah >= 1`
branch of the source): `from_ayah < 1` becomes the literal `1`;
`from_ayah > len(result)` becomes the literal row count `len(result)`;
otherwise `result[0][0] + (from_ayah - 1)`. -/
def resolve_from (db : List Row) (from_surah : Int) (from_ayah : Option Int) : Int :=
  let result := db.filter (fun r => (r.sura_number : Int) == from_surah)
  if pyInt from_ayah < 1 then 1
  else if pyInt from_ayah > result.length then (result.length : Int)
  else (firstNumber result : Int) + (pyInt from_ayah - 1)

/-- The resolution of the upper bound in `get_range` (the `to_surah >= 1`
branch): `to_ayah < 1` and `to_ayah > len(result)` both become the literal
row count `len(result)`; otherwise `result[0][0] + (to_ayah - 1)`. -/
def resolve_to (db : List Row) (to_surah : Int) (to_ayah : Option Int) : Int :=
  let result := db.filter (fun r => (r.sura_number : Int) == to_surah)
  if pyInt to_ayah < 1 then (result.length : Int)
  else if pyInt to_ayah > result.length then (result.length : Int)
  else (firstNumber result : Int) + (pyInt to_ayah - 1)

/-- `quran_mgr.get_range`.  The source mutates `self` (`current_pos = -1`,
`max_pos = -1`, `type = 5`) before building the query; when neither branch
produces a usable bound it executes the string
`"SELECT * FROM quran WHERE number > 1'"`, whose stray trailing quote makes
SQLite raise `OperationalError`.  The raise is modelled as `Except.error`
carrying the already-mutated state. -/
def get_range (st : QState) (from_surah from_ayah to_surah to_ayah : Option Int) :
    Except QState (List Char × QState) :=
  let st1 := { st with current_pos := -1, max_pos := -1, type := 5 }
  let fa := if pyInt from_surah ≥ 1
    then some (resolve_from st1.db (pyInt from_surah) from_ayah) else from_ayah
  let ta := if pyInt to_surah ≥ 1
    then some (resolve_to st1.db (pyInt to_surah) to_ayah) else to_ayah
  if pyTruthy ta then
    let fa' := match fa with
      | none => (1 : Int)
      | some v => v
    let rows := st1.db.filter
      (fun r => fa' ≤ (r.number : Int) && (r.number : Int) ≤ pyInt ta)
    Except.ok (get_text { st1 with data_list := rows })
  else if pyTruthy fa && ta == none then
    let rows := st1.db.filter (fun r => (r.number : Int) ≥ pyInt fa)
    Except.ok (get_text { st1 with data_list := rows })
  else
    Except.error st1

/-- `QuranConst._max`, the tuple `(604, 114, 240, 60, 30)`. -/
def quran_max_tuple : List Nat := [604, 114, 240, 60, 30]

/-- `QuranConst._category_labels`. -/
def category_labels : List (List Char) :=
  ["صفحة".data, "سورة".data, "ربع".data, "حزب".data, "جزء".data]

/-- Python tuple indexing `t[i]`: non-negative indices from the front,
negative indices from the back, `IndexError` (here `none`) otherwise. -/
def pyTupleGet {α : Type} (l : List α) (i : Int) : Option α :=
  if 0 ≤ i then l.get? i.toNat
  else if 0 ≤ (l.length : Int) + i then l.get? ((l.length : Int) + i).toNat
  else none

/-- `QuranConst.get_max`: `cls._max[category_number]`. -/
def get_max (category_number : Int) : Option Nat :=
  pyTupleGet quran_max_tuple category_number

/-- `QuranConst.get_category_label`: `cls._category_labels[category_number]`. -/
def get_category_label (category_number : Int) : Option (List Char) :=
  pyTupleGet category_labels category_number

/-- The f-string of `get_surah`:
`f"SELECT * FROM quran WHERE sura_number = {surah_number}"`. -/
def surah_query_text (n : Int) : List Char :=
  "SELECT * FROM quran WHERE sura_number = ".data ++ (toString n).data

/-- The f-string of `get_page`. -/
def page_query_text (n : Int) : List Char :=
  "SELECT * FROM quran WHERE page = ".data ++ (toString n).data

/-- The f-string of `get_hizb`. -/
def hizb_query_text (n : Int) : List Char :=
  "SELECT * FROM quran WHERE hizb = ".data ++ (toString n).data

/-- The f-string of `get_juzz`. -/
def juzz_query_text (n : Int) : List Char :=
  "SELECT * FROM quran WHERE juz = ".data ++ (toString n).data

/-- The f-string of `get_quarter`. -/
def quarter_query_text (n : Int) : List Char :=
  "SELECT * FROM quran WHERE hizbQuarter = ".data ++ (toString n).data

/-- The bound-resolution f-string of `get_range`:
`f"select number from quran WHERE sura_number = {s}"`. -/
def range_sub_query_text (n : Int) : List Char :=
  "select number from quran WHERE sura_number = ".data ++ (toString n).data

/-- The `BETWEEN` f-string of `get_range`. -/
def range_between_query_text (a b : Int) : List Char :=
  "SELECT * FROM quran WHERE number BETWEEN ".data ++ (toString a).data
    ++ " AND ".data ++ (toString b).data

/-- The lower-bound-only f-string of `get_range` (note the doubled space of
the source: `"SELECT * FROM quran WHERE  number >= {from_ayah}"`). -/
def range_ge_query_text (n : Int) : List Char :=
  "SELECT * FROM quran WHERE  number >= ".data ++ (toString n).data

/-- The default query of `get_range` when neither bound is usable:
`"SELECT * FROM quran WHERE number > 1'"` — the source string ends in a
stray single quote. -/
def range_default_query : List Char :=
  "SELECT * FROM quran WHERE number > 1".data ++ [sqlQuote]

/-- The parameter-bound query of `get_ayah_info`: its text is a constant,
the ayah number travels as a `?` parameter. -/
def ayah_info_query_text : List Char :=
  "SELECT sura_number, number, sura_name, numberInSurah FROM quran WHERE number = ?".data

/-- The resolution rule exactly as the specification words it (spec §4.3,
claim C2): look up the first global number of the chapter; a verse-in-chapter
below 1 is treated as 1; one beyond the chapter's verse count is clamped to
the chapter's last verse; otherwise first global number plus (v - 1). -/
def spec_resolve_bound (db : List Row) (sura : Int) (v : Int) : Int :=
  let result := db.filter (fun r => (r.sura_number : Int) == sura)
  let first := (firstNumber result : Int)
  if v < 1 then first
  else if v > result.length then first + (result.length : Int) - 1
  else first + (v - 1)

instance {ε α : Type} [DecidableEq ε] [DecidableEq α] : DecidableEq (Except ε α) := fun a b =>
  match a, b with
  | Except.error x, Except.error y =>
    if h : x = y then Decidable.isTrue (by rw [h])
    else Decidable.isFalse (fun hc => h (by cases hc; rfl))
  | Except.error _, Except.ok _ => Decidable.isFalse (fun hc => by cases hc)
  | Except.ok _, Except.error _ => Decidable.isFalse (fun hc => by cases hc)
  | Except.ok x, Except.ok y =>
    if h : x = y then Decidable.isTrue (by rw [h])
    else Decidable.isFalse (fun hc => h (by cases hc; rfl))

/-- The `AyahData` produced by the `get_text` loop started at offset `p`:
verse `a` contributes the span
`[p, p + len(renderAyah a) - 1]` and advances the offset by that length. -/
def buildSpans (shw ln : Bool) (p : Nat) : List Row → AyahData
  | [] => []
  | a :: rest =>
    (a.number, p, p + (renderAyah shw ln a).length - 1) ::
      buildSpans shw ln (p + (renderAyah shw ln a).length) rest

/-- Offset at which the text emitted for the `i`-th verse of `rows` starts:
the total length of the texts emitted for the verses before it. -/
def renderStart (shw ln : Bool) (rows : List Row) (i : Nat) : Nat :=
  ((rows.take i).map (fun a => (renderAyah shw ln a).length)).sum

/-- Convenience constructor for sample verse rows. -/
def mkRow (t : String) (num : Nat) (name : String)
    (sura vinS pg hz hq jz : Nat) : Row :=
  { text := t.data, number := num, sura_name := name.data, sura_number := sura,
    numberInSurah := vinS, page := pg, hizb := hz, hizbQuarter := hq, juz := jz }

/-- Sample verse table: surah 2 occupying global numbers 8, 9, 10
(three verses), as stored in ascending global order. -/
def sample_db : List Row :=
  [mkRow "الم" 8 "البقرة" 2 2 2 1 1 1,
   mkRow "ب" 9 "البقرة" 2 3 2 1 1 1,
   mkRow "ج" 10 "البقرة" 2 4 2 1 1 1]

/-- Fresh navigator over `sample_db`. -/
def sample_st : QState := { db := sample_db }

/-- Verse table containing a verse of surah 114 (the last chapter). -/
def c1db : List Row := [mkRow "قل" 6232 "الناس" 114 2 604 60 240 30]

/-- Fresh navigator over `c1db`. -/
def c1st : QState := { db := c1db }

/-- Navigator sitting at the simultaneous lower and upper bound of a
one-unit category (`current_pos = max_pos = 1`). -/
def c4st : QState := { current_pos := 1, max_pos := 1 }

/-- Navigator carrying a position index and blob from a previous render,
with an empty `data_list`. -/
def c5st : QState :=
  { data_list := [], ayah_data := [(1, 0, 5)], text := "x".data }

/-- Two-verse input sequence for the renderer (distinct global numbers,
neither verse a chapter opener). -/
def c6rows : List Row :=
  [mkRow "اب" 100 "س" 7 2 1 1 1 1, mkRow "جد" 101 "س" 7 3 1 1 1 1]

/-- Navigator whose `data_list` is `c6rows`. -/
def c6st : QState := { data_list := c6rows }

/-- A first verse of surah 2 whose text opens with the basmala pattern. -/
def c7row : Row :=
  { text := basmala_sp ++ "الم".data, number := 8, sura_name := "البقرة".data,
    sura_number := 2, numberInSurah := 1, page := 2, hizb := 1,
    hizbQuarter := 1, juz := 1 }

/-- A first verse of surah 1 (the chapter that keeps the basmala inline). -/
def c7row1 : Row :=
  { text := basmala_sp ++ "الم".data, number := 1, sura_name := "الفاتحة".data,
    sura_number := 1, numberInSurah := 1, page := 1, hizb := 1,
    hizbQuarter := 1, juz := 1 }

/-- C1: the claim says `select(Chapter, 9999)` behaves identically to
`select(Chapter, 114)` (same blob, query issued for 114, same state).  In the
source, `get_surah` clamps `self.current_pos` to 114 but interpolates the raw
argument 9999 into the SQL filter, so the query matches no rows: the call
returns the empty blob with an empty verse list — different from
`get_surah(114)` — while `current_pos` still reads 114. -/
theorem c1_clamping_divergence :
    (get_surah c1st 9999).1 = [] ∧
    (get_surah c1st 9999).2.current_pos = 114 ∧
    (get_surah c1st 9999).2.data_list = [] ∧
    (get_surah c1st 114).2.data_list ≠ [] ∧
    (get_surah c1st 9999).1 ≠ (get_surah c1st 114).1 := by
  decide

/-- C2: the claim (and spec §4.3) says an out-of-range verse-in-chapter
clamps to the global number of the chapter's last verse, and one below 1
resolves to the chapter's first verse.  On `sample_db` (surah 2 = globals
8..10), the source's `resolve_from` yields the literal verse count 3 for
`from_ayah = 5` (the spec rule gives 10) and the literal constant 1 for
`from_ayah = 0` (the spec rule gives 8). -/
theorem c2_resolution_divergence :
    resolve_from sample_db 2 (some 5) = 3 ∧
    spec_resolve_bound sample_db 2 5 = 10 ∧
    resolve_from sample_db 2 (some 0) = 1 ∧
    spec_resolve_bound sample_db 2 0 = 8 ∧
    resolve_to sample_db 2 (some 5) = 3 := by
  decide

/-- C3: the claim says that when neither bound resolves, `get_range` queries
and returns the whole corpus from global verse 2 onward rather than failing.
In the source the branch executes
`"SELECT * FROM quran WHERE number > 1'"` — with a stray trailing single
quote (an unterminated string literal, odd quote count), so SQLite raises
`OperationalError` and the call fails with the state already mutated. -/
theorem c3_default_range_fails :
    get_range sample_st none none none none =
      Except.error { sample_st with current_pos := -1, max_pos := -1, type := 5 } ∧
    range_default_query.count sqlQuote = 1 ∧
    range_default_query ≠ "SELECT * FROM quran WHERE number > 1".data := by
  decide

/-- C4: `next()` at `current_pos >= max_pos`, `back()` at
`current_pos <= 1`, and `goto(i)` for `i > max_pos` all return empty text
and leave the whole navigator state unchanged. -/
theorem c4_out_of_bounds_noops (st : QState) (i : Int) :
    (st.current_pos ≥ st.max_pos → next st = ([], st)) ∧
    (st.current_pos ≤ 1 → back st = ([], st)) ∧
    (i > st.max_pos → goto st i = ([], st)) := by
  refine ⟨fun h => ?_, fun h => ?_, fun h => ?_⟩
  · unfold next; rw [if_pos h]
  · unfold back; rw [if_pos h]
  · unfold goto; rw [if_pos h]

/-- Witness for C4 at `current_pos = max_pos = 1` and `goto 5`. -/
theorem c4_witness :
    (c4st.current_pos ≥ c4st.max_pos ∧ c4st.current_pos ≤ 1 ∧ (5:Int) > c4st.max_pos) ∧
    (next c4st = ([], c4st) ∧ back c4st = ([], c4st) ∧ goto c4st 5 = ([], c4st)) :=
  ⟨⟨by decide, by decide, by decide⟩,
   (c4_out_of_bounds_noops c4st 5).1 (by decide),
   (c4_out_of_bounds_noops c4st 5).2.1 (by decide),
   (c4_out_of_bounds_noops c4st 5).2.2 (by decide)⟩

/-- C5 counterexample: the claim says that after rendering an empty verse
sequence the stored position index contains no entries.  On a state holding
the index of a previous render, `get_text` returns `""` through its early
return and the stored `ayah_data` still holds the old entry `(1, 0, 5)`. -/
theorem c5_stale_index_counterexample :
    (get_text c5st).1 = [] ∧
    (get_text c5st).2.ayah_data = [(1, 0, 5)] ∧
    ¬ (get_text c5st).2.ayah_data = [] := by
  decide

/-- C5 (amended): on an empty `data_list`, `get_text` returns the empty
string and leaves the whole state — including the stored position index and
blob of the previous render — unchanged. -/
theorem c5_empty_render_amended (st : QState) (h : st.data_list = []) :
    get_text st = ([], st) := by
  unfold get_text
  rw [h]
  rfl

/-- Witness for C5 (amended) on `c5st`. -/
theorem c5_empty_render_witness :
    c5st.data_list = [] ∧ get_text c5st = ([], c5st) :=
  ⟨by decide, c5_empty_render_amended c5st (by decide)⟩

/-- C8 counterexample: the claim says every integer category number outside
{0,1,2,3,4} is rejected, never silently substituted.  Python negative
indexing makes `get_max(-1)` silently return 30 (the juz maximum) and
`get_category_label(-1)` the juz label. -/
theorem c8_negative_index_counterexample :
    get_max (-1) = some 30 ∧ get_category_label (-1) = some ("جزء".data) := by
  decide

/-- C8 (amended): `get_max`/`get_category_label` return the documented
values on 0..4; indices `>= 5` or `< -5` fail (IndexError, modelled `none`);
indices -5..-1 silently return the entry that many places from the end
(Python negative indexing), i.e. behave like index `i + 5`. -/
theorem c8_get_max_label_amended :
    (get_max 0 = some 604 ∧ get_max 1 = some 114 ∧ get_max 2 = some 240 ∧
      get_max 3 = some 60 ∧ get_max 4 = some 30) ∧
    (get_category_label 0 = some ("صفحة".data) ∧
      get_category_label 1 = some ("سورة".data) ∧
      get_category_label 2 = some ("ربع".data) ∧
      get_category_label 3 = some ("حزب".data) ∧
      get_category_label 4 = some ("جزء".data)) ∧
    (∀ i : Int, 5 ≤ i → get_max i = none ∧ get_category_label i = none) ∧
    (∀ i : Int, i < -5 → get_max i = none ∧ get_category_label i = none) ∧
    (∀ i : Int, -5 ≤ i → i < 0 →
      get_max i = get_max (i + 5) ∧
      get_category_label i = get_category_label (i + 5)) := by
  refine ⟨by decide, by decide, fun i h => ⟨?_, ?_⟩, fun i h => ⟨?_, ?_⟩, fun i h1 h2 => ?_⟩
  · have h0 : (0:Int) ≤ i := by omega
    rw [get_max, pyTupleGet, if_pos h0]
    apply List.get?_eq_none.mpr
    rw [show quran_max_tuple.length = 5 from rfl]
    omega
  · have h0 : (0:Int) ≤ i := by omega
    rw [get_category_label, pyTupleGet, if_pos h0]
    apply List.get?_eq_none.mpr
    rw [show category_labels.length = 5 from rfl]
    omega
  · have h0 : ¬ (0:Int) ≤ i := by omega
    have h1 : ¬ (0:Int) ≤ (quran_max_tuple.length : Int) + i := by
      rw [show quran_max_tuple.length = 5 from rfl]; omega
    rw [get_max, pyTupleGet, if_neg h0, if_neg h1]
  · have h0 : ¬ (0:Int) ≤ i := by omega
    have h1 : ¬ (0:Int) ≤ (category_labels.length : Int) + i := by
      rw [show category_labels.length = 5 from rfl]; omega
    rw [get_category_label, pyTupleGet, if_neg h0, if_neg h1]
  · interval_cases i <;> exact ⟨by decide, by decide⟩

/-- Witness for C8 (amended) at indices 7, -7 and -2. -/
theorem c8_get_max_label_witness :
    ((5:Int) ≤ 7 ∧ (-7:Int) < -5 ∧ (-5:Int) ≤ -2 ∧ (-2:Int) < 0) ∧
    get_max 7 = none ∧ get_max (-7) = none ∧ get_max (-2) = get_max 3 :=
  ⟨⟨by decide, by decide, by decide, by decide⟩,
   (c8_get_max_label_amended.2.2.1 7 (by decide)).1,
   (c8_get_max_label_amended.2.2.2.1 (-7) (by decide)).1,
   (c8_get_max_label_amended.2.2.2.2 (-2) (by decide) (by decide)).1⟩

/-- C9 counterexample: the claim says that after a range query every
`goto(i)` (for every integer `i`) returns empty text with no state change.
Starting from a fresh navigator over `sample_db`, `get_range(from_surah=1)`
sets the Range state (`type = 5`, `max_pos = -1`); the subsequent `goto(-1)`
passes the `goto > max_pos` guard, falls through the `type` dispatch to
`get_juzz`, and leaves the navigator with `type = 4` and `max_pos = 30` —
a state change that escapes the Range state. -/
theorem c9_range_not_terminal_counterexample :
    Except.map (fun p => ((goto p.2 (-1)).2.type, (goto p.2 (-1)).2.max_pos))
        (get_range sample_st (some 1) none none none) =
      Except.ok (4, 30) := by
  decide

/-- C9 (amended): in the Range state that `get_range` installs
(`type = 5`, `current_pos = -1`, `max_pos = -1`), `next()` and `back()`
return empty text with no state change, and so does `goto(i)` for every
`i > -1`; only `goto(i)` with `i ≤ -1` escapes the state. -/
theorem c9_range_terminal_amended (st : QState)
    (h5 : st.type = 5) (hc : st.current_pos = -1) (hm : st.max_pos = -1) :
    next st = ([], st) ∧ back st = ([], st) ∧
    ∀ i : Int, -1 < i → goto st i = ([], st) := by
  refine ⟨?_, ?_, fun i hi => ?_⟩
  · have h : st.current_pos ≥ st.max_pos := by rw [hc, hm]
    unfold next; rw [if_pos h]
  · have h : st.current_pos ≤ 1 := by rw [hc]; decide
    unfold back; rw [if_pos h]
  · have h : i > st.max_pos := by rw [hm]; exact hi
    unfold goto; rw [if_pos h]

/-- Witness for C9 (amended) on the literal Range state, with `goto 0`. -/
theorem c9_range_terminal_witness :
    (({ current_pos := -1, max_pos := -1, type := 5 } : QState).type = 5 ∧
     ({ current_pos := -1, max_pos := -1, type := 5 } : QState).current_pos = -1 ∧
     ({ current_pos := -1, max_pos := -1, type := 5 } : QState).max_pos = -1 ∧
     (-1:Int) < 0) ∧
    (next { current_pos := -1, max_pos := -1, type := 5 } =
      ([], { current_pos := -1, max_pos := -1, type := 5 }) ∧
     back { current_pos := -1, max_pos := -1, type := 5 } =
      ([], { current_pos := -1, max_pos := -1, type := 5 }) ∧
     goto { current_pos := -1, max_pos := -1, type := 5 } 0 =
      ([], { current_pos := -1, max_pos := -1, type := 5 })) :=
  ⟨⟨rfl, rfl, rfl, by decide⟩,
   (c9_range_terminal_amended _ rfl rfl rfl).1,
   (c9_range_terminal_amended _ rfl rfl rfl).2.1,
   (c9_range_terminal_amended _ rfl rfl rfl).2.2 0 (by decide)⟩

/-- C10 counterexample: the claim says the SQL text issued by the selectors
is a constant independent of the caller-supplied value.  The `get_surah`
query text for argument 1 differs from the one for argument 2: the value is
interpolated into the query string. -/
theorem c10_query_text_not_constant :
    surah_query_text 1 ≠ surah_query_text 2 := by
  decide

/-- C10 (amended): all six navigator selectors build their SQL by f-string
interpolation of the caller-supplied value — two query texts coincide
exactly when the decimal renderings of the values coincide — while the
verse-metadata lookup `get_ayah_info` uses a constant, parameter-bound
query text. -/
theorem c10_query_interpolation_amended :
    (∀ n m : Int, surah_query_text n = surah_query_text m ↔ toString n = toString m) ∧
    (∀ n m : Int, page_query_text n = page_query_text m ↔ toString n = toString m) ∧
    (∀ n m : Int, hizb_query_text n = hizb_query_text m ↔ toString n = toString m) ∧
    (∀ n m : Int, juzz_query_text n = juzz_query_text m ↔ toString n = toString m) ∧
    (∀ n m : Int, quarter_query_text n = quarter_query_text m ↔ toString n = toString m) ∧
    (∀ n m : Int, range_sub_query_text n = range_sub_query_text m ↔ toString n = toString m) ∧
    ayah_info_query_text =
      "SELECT sura_number, number, sura_name, numberInSurah FROM quran WHERE number = ?".data := by
  refine ⟨?_, ?_, ?_, ?_, ?_, ?_, rfl⟩ <;>
    (intro n m
     constructor
     · intro h
       have hd := List.append_cancel_left h
       exact String.ext hd
     · intro h
       simp [surah_query_text, page_query_text, hizb_query_text,
         juzz_query_text, quarter_query_text, range_sub_query_text, h])

theorem leadsWith_append (p s t : List Char) (h : leadsWith p s = true) :
    leadsWith p (s ++ t) = true := by
  induction p generalizing s with
  | nil => rfl
  | cons a ps ih =>
    cases s with
    | nil => simp [leadsWith] at h
    | cons b ss =>
      simp [leadsWith] at h ⊢
      exact ⟨h.1, ih ss h.2⟩

theorem leadsWith_self_append (p t : List Char) : leadsWith p (p ++ t) = true := by
  induction p with
  | nil => rfl
  | cons a ps ih => simp [leadsWith, ih]

theorem leadsWith_of_le (p : List Char) :
    ∀ (x b : List Char), leadsWith p (x ++ b) = true → p.length ≤ x.length →
      leadsWith p x = true := by
  induction p with
  | nil => intro x b _ _; rfl
  | cons a ps ih =>
    intro x b h hl
    cases x with
    | nil => simp at hl
    | cons c xs =>
      simp [leadsWith] at h ⊢
      simp at hl
      exact ⟨h.1, ih xs b h.2 (by omega)⟩

theorem leadsWith_get? (p : List Char) :
    ∀ (s : List Char), leadsWith p s = true →
      ∀ j, j < p.length → s.get? j = p.get? j := by
  induction p with
  | nil => intro s _ j hj; simp at hj
  | cons a ps ih =>
    intro s h j hj
    cases s with
    | nil => simp [leadsWith] at h
    | cons b ss =>
      simp [leadsWith] at h
      cases j with
      | zero => simp [h.1]
      | succ k => simpa using ih ss h.2 k (by simpa using Nat.lt_of_succ_lt_succ hj)

theorem containsSeq_nil_pat (t : List Char) : containsSeq [] t = true := by
  cases t with
  | nil => rfl
  | cons c ts => simp [containsSeq, leadsWith]

theorem containsSeq_cons_of (pat : List Char) (c : Char) (rest : List Char)
    (h : containsSeq pat rest = true) : containsSeq pat (c :: rest) = true := by
  simp [containsSeq, h]

theorem containsSeq_of_leadsWith (pat s : List Char) (h : leadsWith pat s = true) :
    containsSeq pat s = true := by
  cases s with
  | nil =>
    cases pat with
    | nil => rfl
    | cons a ps => simp [leadsWith] at h
  | cons c ss => simp [containsSeq, h]

theorem containsSeq_append_right (pat x b : List Char) (h : containsSeq pat b = true) :
    containsSeq pat (x ++ b) = true := by
  induction x with
  | nil => simpa
  | cons c xs ih => simpa using containsSeq_cons_of pat c (xs ++ b) ih

theorem containsSeq_append_left (pat : List Char) :
    ∀ (s t : List Char), containsSeq pat s = true → containsSeq pat (s ++ t) = true := by
  intro s
  induction s with
  | nil =>
    intro t h
    simp [containsSeq] at h
    subst h
    simpa using containsSeq_nil_pat t
  | cons c ss ih =>
    intro t h
    simp only [containsSeq, Bool.or_eq_true] at h
    rcases h with h1 | h2
    · simpa [containsSeq] using Or.inl (leadsWith_append pat (c :: ss) t h1)
    · simpa [containsSeq] using Or.inr (ih t h2)

theorem containsSeq_self_append (pat t : List Char) : containsSeq pat (pat ++ t) = true := by
  cases pat with
  | nil => simpa using containsSeq_nil_pat t
  | cons a ps =>
    have := leadsWith_self_append (a :: ps) t
    simpa [containsSeq] using Or.inl this

theorem replaceAll_keeps_front (pat rep : List Char) :
    ∀ (x b : List Char),
      (∀ i, i < x.length → leadsWith pat ((x ++ b).drop i) = false) →
      replaceAll (x ++ b) pat rep = x ++ replaceAll b pat rep := by
  intro x
  induction x with
  | nil => intro b _; simp
  | cons c xs ih =>
    intro b hno
    have h0 : leadsWith pat (c :: (xs ++ b)) = false := by
      simpa using hno 0 (by simp)
    simp only [List.cons_append, replaceAll]
    rw [dif_neg (by simp [h0])]
    rw [ih b (fun i hi => by
      simpa using hno (i + 1) (by simpa using Nat.succ_lt_succ hi))]

theorem replaceAll_yields_rep (pat rep : List Char) (hp : pat ≠ []) :
    ∀ s, containsSeq pat s = true → containsSeq rep (replaceAll s pat rep) = true := by
  intro s
  induction s with
  | nil =>
    intro h
    cases pat with
    | nil => exact absurd rfl hp
    | cons a ps => simp [containsSeq] at h
  | cons c rest ih =>
    intro h
    by_cases hc : leadsWith pat (c :: rest) = true
    · simp only [replaceAll]
      rw [dif_pos ⟨hp, hc⟩]
      exact containsSeq_self_append rep _
    · simp only [replaceAll]
      rw [dif_neg (by simp [hc])]
      have h' : containsSeq pat rest = true := by
        simp only [containsSeq, Bool.or_eq_true] at h
        rcases h with h1 | h2
        · exact absurd h1 hc
        · exact h2
      exact containsSeq_cons_of rep c _ (ih h')

theorem replaceAll_append_of_safe_front (pat rep : List Char)
    (hp : pat ≠ []) (hnl : '\n' ∉ pat) :
    ∀ (x b : List Char), x.get? (x.length - 1) = some '\n' →
      containsSeq pat x = false →
      replaceAll (x ++ b) pat rep = x ++ replaceAll b pat rep := by
  intro x
  induction x with
  | nil => intro b hx _; simp at hx
  | cons c xs ih =>
    intro b hx hnc
    have hx' : (c :: xs).get? xs.length = some '\n' := by
      have hxlen : (c :: xs).length - 1 = xs.length := by simp
      rw [← hxlen]; exact hx
    have h0 : leadsWith pat (c :: (xs ++ b)) = false := by
      cases hb : leadsWith pat (c :: (xs ++ b)) with
      | false => rfl
      | true =>
        exfalso
        rcases Nat.lt_or_ge (c :: xs).length pat.length with hgt | hle
        case inr =>
          have hlw : leadsWith pat (c :: xs) = true :=
            leadsWith_of_le pat (c :: xs) b (by simpa using hb) hle
          rw [containsSeq_of_leadsWith pat (c :: xs) hlw] at hnc
          cases hnc
        case inl =>
          have hj : xs.length < pat.length := by
            simp only [List.length_cons] at hgt; omega
          have hchar := leadsWith_get? pat (c :: (xs ++ b)) hb xs.length hj
          have hidx : ((c :: xs) ++ b).get? xs.length = some '\n' := by
            rw [List.get?_append (by simp)]
            exact hx'
          rw [List.cons_append] at hidx
          rw [hidx] at hchar
          exact hnl (List.get?_mem hchar.symm)
    simp only [List.cons_append, replaceAll]
    rw [dif_neg (by simp [h0])]
    cases xs with
    | nil => simp
    | cons d ds =>
      have hx2 : (d :: ds).get? ((d :: ds).length - 1) = some '\n' := by
        have he : (c :: d :: ds).get? (ds.length + 1) = (d :: ds).get? ds.length :=
          List.get?_cons_succ ..
        have hxlen2 : (d :: ds).length - 1 = ds.length := by simp
        rw [hxlen2]
        rw [← he]
        simpa using hx'
      have hnc2 : containsSeq pat (d :: ds) = false := by
        have hsplit : leadsWith pat (c :: d :: ds) = false ∧
            containsSeq pat (d :: ds) = false := by
          simpa [containsSeq, Bool.or_eq_false_iff] using hnc
        exact hsplit.2
      rw [ih b hx2 hnc2]

theorem header_last_newline (a : Row) :
    (header a).get? ((header a).length - 1) = some '\n' := by
  have hsplit : header a =
      (a.sura_name ++ " ".data ++ (toString a.sura_number).data ++ ['\n', '|']) ++ ['\n'] := by
    have hd : ("\n|\n".data : List Char) = ['\n', '|'] ++ ['\n'] := by decide
    rw [header, hd]
    simp [List.append_assoc]
  rw [hsplit]
  have hl : ((a.sura_name ++ " ".data ++ (toString a.sura_number).data ++ ['\n', '|']) ++ ['\n']).length - 1 =
      (a.sura_name ++ " ".data ++ (toString a.sura_number).data ++ ['\n', '|']).length := by
    simp
  rw [hl]
  exact List.get?_concat_length ..

/-- C7: every verse with in-chapter number 1 is emitted with the
chapter-header line `"{chapter_name} {chapter_id}\n|\n"` as a prefix
(provided the invocation pattern does not occur in the header line itself);
for a chapter other than 1 whose verse text contains the invocation pattern,
the emitted text contains the invocation phrase immediately followed by a
line break; for chapter 1 the verse body is emitted verbatim after the
header — the invocation stays inline with no forced line break. -/
theorem c7_chapter_header (shw ln : Bool) (a : Row)
    (h1 : a.numberInSurah = 1)
    (hhdr : containsSeq basmala_sp (header a) = false) :
    (∃ rest, renderAyah shw ln a = header a ++ rest) ∧
    (a.sura_number ≠ 1 → containsSeq basmala_sp a.text = true →
      containsSeq basmala_nl (renderAyah shw ln a) = true) ∧
    (a.sura_number = 1 →
      renderAyah shw ln a =
        header a ++ a.text ++
          (if shw then " (".data ++ (toString a.numberInSurah).data ++ ")".data else []) ++
          (if ln then "\n".data else " ".data)) := by
  have hp : basmala_sp ≠ [] := by decide
  have hnl : '\n' ∉ basmala_sp := by decide
  have hlast := header_last_newline a
  refine ⟨?_, ?_, ?_⟩
  · by_cases hs : a.sura_number = 1
    · refine ⟨a.text ++
        (if shw then " (".data ++ (toString a.numberInSurah).data ++ ")".data else []) ++
        (if ln then "\n".data else " ".data), ?_⟩
      cases shw <;> cases ln <;> simp [renderAyah, h1, hs, List.append_assoc]
    · have hsplit := replaceAll_append_of_safe_front basmala_sp basmala_nl hp hnl
        (header a) a.text hlast hhdr
      refine ⟨replaceAll a.text basmala_sp basmala_nl ++
        (if shw then " (".data ++ (toString a.numberInSurah).data ++ ")".data else []) ++
        (if ln then "\n".data else " ".data), ?_⟩
      cases shw <;> cases ln <;> simp [renderAyah, h1, hs, hsplit, List.append_assoc]
  · intro hs hct
    have hsplit := replaceAll_append_of_safe_front basmala_sp basmala_nl hp hnl
      (header a) a.text hlast hhdr
    have hrep : containsSeq basmala_nl (replaceAll a.text basmala_sp basmala_nl) = true :=
      replaceAll_yields_rep basmala_sp basmala_nl hp a.text hct
    cases shw <;> cases ln <;>
      simp only [renderAyah, h1, hs, hsplit, if_true, if_false, List.append_assoc,
        if_pos, ite_true, ite_false, ne_eq, not_false_iff] <;>
      (first
        | exact containsSeq_append_right _ _ _
            (containsSeq_append_left _ _ _ hrep)
        | skip) <;>
      simp [renderAyah, h1, hs, hsplit, List.append_assoc] <;>
      exact containsSeq_append_right _ _ _ (containsSeq_append_left _ _ _ hrep)
  · intro hs
    cases shw <;> cases ln <;> simp [renderAyah, h1, hs, List.append_assoc]

theorem renderAyah_length_pos (shw ln : Bool) (a : Row) :
    1 ≤ (renderAyah shw ln a).length := by
  have h1 : (" ".data : List Char).length = 1 := rfl
  have h2 : ("\n".data : List Char).length = 1 := rfl
  unfold renderAyah
  cases ln <;> simp [List.length_append, h1, h2]

theorem get_text_loop_eq (shw ln : Bool) (rows : List Row) :
    ∀ (t : List Char) (p : Nat) (acc : AyahData),
      get_text_loop shw ln rows t p acc =
        (t ++ (rows.map (renderAyah shw ln)).flatten, acc ++ buildSpans shw ln p rows) := by
  induction rows with
  | nil => intro t p acc; simp [get_text_loop, buildSpans]
  | cons a rest ih =>
    intro t p acc
    simp [get_text_loop, buildSpans, ih, AyahData.insert, List.append_assoc]

theorem buildSpans_length (shw ln : Bool) :
    ∀ (rows : List Row) (p : Nat), (buildSpans shw ln p rows).length = rows.length := by
  intro rows
  induction rows with
  | nil => intro p; rfl
  | cons a rest ih => intro p; simp [buildSpans, ih]

theorem buildSpans_get? (shw ln : Bool) :
    ∀ (rows : List Row) (p i : Nat) (a : Row), rows.get? i = some a →
      (buildSpans shw ln p rows).get? i =
        some (a.number, p + renderStart shw ln rows i,
          p + renderStart shw ln rows i + (renderAyah shw ln a).length - 1) := by
  intro rows
  induction rows with
  | nil => intro p i a h; cases h
  | cons b rest ih =>
    intro p i a h
    cases i with
    | zero =>
      have hb : b = a := by simpa using h
      subst hb
      simp [buildSpans, renderStart]
    | succ k =>
      have h' : rest.get? k = some a := by simpa using h
      have hrec := ih (p + (renderAyah shw ln b).length) k a h'
      have hs : renderStart shw ln (b :: rest) (k + 1) =
          (renderAyah shw ln b).length + renderStart shw ln rest k := by
        simp [renderStart, List.take_succ_cons]
      simp only [buildSpans, List.get?_cons_succ, hrec, hs]
      simp [Nat.add_assoc]

theorem buildSpans_map_fst (shw ln : Bool) :
    ∀ (rows : List Row) (p : Nat),
      (buildSpans shw ln p rows).map (fun e => e.1) = rows.map Row.number := by
  intro rows
  induction rows with
  | nil => intro p; rfl
  | cons b rest ih => intro p; simp [buildSpans, ih]

theorem flatten_extract :
    ∀ (ls : List (List Char)) (i : Nat) (x : List Char), ls.get? i = some x →
      ((ls.flatten).drop (((ls.take i).map List.length).sum)).take x.length = x := by
  intro ls
  induction ls with
  | nil => intro i x h; cases h
  | cons y rest ih =>
    intro i x h
    cases i with
    | zero =>
      have hy : y = x := by simpa using h
      subst hy
      simpa using List.take_left y rest.flatten
    | succ k =>
      have h' : rest.get? k = some x := by simpa using h
      have e1 : (((y :: rest).take (k + 1)).map List.length).sum =
          y.length + (((rest.take k).map List.length).sum) := by
        simp [List.take_succ_cons]
      rw [e1, List.flatten_cons, List.drop_append]
      exact ih k x h'

theorem renderStart_succ (shw ln : Bool) (rows : List Row) (i : Nat) (a : Row)
    (h : rows.get? i = some a) :
    renderStart shw ln rows (i + 1) =
      renderStart shw ln rows i + (renderAyah shw ln a).length := by
  unfold renderStart
  rw [List.take_succ]
  have h2 : rows[i]? = some a := by simpa [← List.get?_eq_getElem?] using h
  rw [h2]
  simp

theorem renderStart_mono (shw ln : Bool) (rows : List Row) :
    ∀ (i j : Nat), i ≤ j →
      renderStart shw ln rows i ≤ renderStart shw ln rows j := by
  intro i j hij
  induction j with
  | zero =>
    have h0 : i = 0 := by omega
    subst h0
    exact Nat.le_refl _
  | succ k ihj =>
    rcases Nat.lt_or_ge i (k + 1) with hlt | hge
    · have hik : i ≤ k := by omega
      have h1 := ihj hik
      have h2 : renderStart shw ln rows k ≤ renderStart shw ln rows (k + 1) := by
        unfold renderStart
        rw [List.take_succ]
        simp
      omega
    · have h0 : i = k + 1 := by omega
      subst h0
      exact Nat.le_refl _

/-- C6: for a render of a non-empty verse sequence whose global numbers are
distinct (the storage invariant), the position index built by `get_text`
satisfies: the entry for the `i`-th verse records exactly
`[offset of the first character emitted for it, offset of the last character
emitted for it]` — i.e. `[offset_before, offset_after - 1]` — and the
emitted blob holds that verse's text at precisely that span; entries appear in
increasing offset order; no two spans overlap; consecutive spans are
contiguous; and each global verse number appears at most once. -/
theorem c6_position_index_invariants (st : QState)
    (hne : st.data_list ≠ [])
    (hnd : (st.data_list.map Row.number).Nodup) :
    (∀ i a, st.data_list.get? i = some a →
        (get_text st).2.ayah_data.get? i =
          some (a.number,
            renderStart st.show_ayah_number st.aya_to_line st.data_list i,
            renderStart st.show_ayah_number st.aya_to_line st.data_list i +
              (renderAyah st.show_ayah_number st.aya_to_line a).length - 1) ∧
        (((st.data_list.map (renderAyah st.show_ayah_number st.aya_to_line)).flatten.drop
            (renderStart st.show_ayah_number st.aya_to_line st.data_list i)).take
            (renderAyah st.show_ayah_number st.aya_to_line a).length =
          renderAyah st.show_ayah_number st.aya_to_line a)) ∧
    (∀ i j e f, i < j →
        (get_text st).2.ayah_data.get? i = some e →
        (get_text st).2.ayah_data.get? j = some f →
        e.2.1 < f.2.1 ∧ e.2.2 < f.2.1) ∧
    (∀ i e f,
        (get_text st).2.ayah_data.get? i = some e →
        (get_text st).2.ayah_data.get? (i + 1) = some f →
        f.2.1 = e.2.2 + 1) ∧
    ((get_text st).2.ayah_data.map (fun e => e.1)).Nodup := by
  have hF : st.data_list.isEmpty = false := by
    cases hD : st.data_list with
    | nil => exact absurd hD hne
    | cons a l => rfl
  have hes : (get_text st).2.ayah_data =
      buildSpans st.show_ayah_number st.aya_to_line 0 st.data_list := by
    simp [get_text, hF, get_text_loop_eq]
  have hrow_of : ∀ i e,
      (buildSpans st.show_ayah_number st.aya_to_line 0 st.data_list).get? i = some e →
      ∃ a, st.data_list.get? i = some a := by
    intro i e he
    cases hrow : st.data_list.get? i with
    | some a => exact ⟨a, rfl⟩
    | none =>
      have hle := List.get?_eq_none.mp hrow
      have : (buildSpans st.show_ayah_number st.aya_to_line 0 st.data_list).get? i = none := by
        apply List.get?_eq_none.mpr
        rw [buildSpans_length]
        exact hle
      rw [this] at he
      cases he
  refine ⟨?_, ?_, ?_, ?_⟩
  · intro i a h
    constructor
    · rw [hes]
      have := buildSpans_get? st.show_ayah_number st.aya_to_line st.data_list 0 i a h
      simpa using this
    · have hmap : (st.data_list.map (renderAyah st.show_ayah_number st.aya_to_line)).get? i =
          some (renderAyah st.show_ayah_number st.aya_to_line a) := by
        rw [List.get?_map, h]
        rfl
      have hfe := flatten_extract
        (st.data_list.map (renderAyah st.show_ayah_number st.aya_to_line)) i
        (renderAyah st.show_ayah_number st.aya_to_line a) hmap
      have hsum : renderStart st.show_ayah_number st.aya_to_line st.data_list i =
          ((((st.data_list.map (renderAyah st.show_ayah_number st.aya_to_line)).take i).map
            List.length).sum) := by
        unfold renderStart
        rw [← List.map_take, List.map_map]
        rfl
      rw [hsum]
      exact hfe
  · intro i j e f hij he hf
    rw [hes] at he hf
    obtain ⟨a, hra⟩ := hrow_of i e he
    obtain ⟨b, hrb⟩ := hrow_of j f hf
    have hba := buildSpans_get? st.show_ayah_number st.aya_to_line st.data_list 0 i a hra
    have hbb := buildSpans_get? st.show_ayah_number st.aya_to_line st.data_list 0 j b hrb
    rw [hba] at he
    rw [hbb] at hf
    have he' : e = (a.number, 0 + renderStart st.show_ayah_number st.aya_to_line st.data_list i,
        0 + renderStart st.show_ayah_number st.aya_to_line st.data_list i +
          (renderAyah st.show_ayah_number st.aya_to_line a).length - 1) :=
      (Option.some.inj he).symm
    have hf' : f = (b.number, 0 + renderStart st.show_ayah_number st.aya_to_line st.data_list j,
        0 + renderStart st.show_ayah_number st.aya_to_line st.data_list j +
          (renderAyah st.show_ayah_number st.aya_to_line b).length - 1) :=
      (Option.some.inj hf).symm
    subst he'
    subst hf'
    have hsucc := renderStart_succ st.show_ayah_number st.aya_to_line st.data_list i a hra
    have hla := renderAyah_length_pos st.show_ayah_number st.aya_to_line a
    have hmono := renderStart_mono st.show_ayah_number st.aya_to_line st.data_list (i + 1) j
      (by omega)
    dsimp only
    omega
  · intro i e f he hf
    rw [hes] at he hf
    obtain ⟨a, hra⟩ := hrow_of i e he
    obtain ⟨b, hrb⟩ := hrow_of (i + 1) f hf
    have hba := buildSpans_get? st.show_ayah_number st.aya_to_line st.data_list 0 i a hra
    have hbb := buildSpans_get? st.show_ayah_number st.aya_to_line st.data_list 0 (i + 1) b hrb
    rw [hba] at he
    rw [hbb] at hf
    have he' : e = (a.number, 0 + renderStart st.show_ayah_number st.aya_to_line st.data_list i,
        0 + renderStart st.show_ayah_number st.aya_to_line st.data_list i +
          (renderAyah st.show_ayah_number st.aya_to_line a).length - 1) :=
      (Option.some.inj he).symm
    have hf' : f = (b.number,
        0 + renderStart st.show_ayah_number st.aya_to_line st.data_list (i + 1),
        0 + renderStart st.show_ayah_number st.aya_to_line st.data_list (i + 1) +
          (renderAyah st.show_ayah_number st.aya_to_line b).length - 1) :=
      (Option.some.inj hf).symm
    subst he'
    subst hf'
    have hsucc := renderStart_succ st.show_ayah_number st.aya_to_line st.data_list i a hra
    have hla := renderAyah_length_pos st.show_ayah_number st.aya_to_line a
    dsimp only
    omega
  · rw [hes, buildSpans_map_fst]
    exact hnd

/-- Witness for C6 on the two-verse sequence `c6rows`: the first recorded
entry carries global number 100 and the span starting at offset 0. -/
theorem c6_position_index_witness :
    (c6st.data_list ≠ [] ∧ (c6st.data_list.map Row.number).Nodup) ∧
    (get_text c6st).2.ayah_data.get? 0 =
      some ((mkRow "اب" 100 "س" 7 2 1 1 1 1).number,
        renderStart c6st.show_ayah_number c6st.aya_to_line c6st.data_list 0,
        renderStart c6st.show_ayah_number c6st.aya_to_line c6st.data_list 0 +
          (renderAyah c6st.show_ayah_number c6st.aya_to_line
            (mkRow "اب" 100 "س" 7 2 1 1 1 1)).length - 1) :=
  ⟨⟨by decide, by decide⟩,
   ((c6_position_index_invariants c6st (by decide) (by decide)).1 0
      (mkRow "اب" 100 "س" 7 2 1 1 1 1) (by decide)).1⟩

/-- Witness for C7 on `c7row` (surah 2, first verse, text opening with the
basmala pattern), with verse numbers shown and verses not one-per-line. -/
theorem c7_chapter_header_witness :
    (c7row.numberInSurah = 1 ∧ containsSeq basmala_sp (header c7row) = false) ∧
    ((∃ rest, renderAyah true false c7row = header c7row ++ rest) ∧
     (c7row.sura_number ≠ 1 → containsSeq basmala_sp c7row.text = true →
       containsSeq basmala_nl (renderAyah true false c7row) = true) ∧
     (c7row.sura_number = 1 →
       renderAyah true false c7row =
         header c7row ++ c7row.text ++
           (if true then " (".data ++ (toString c7row.numberInSurah).data ++ ")".data
            else []) ++
           (if false then "\n".data else " ".data))) :=
  ⟨⟨by decide, by decide⟩, c7_chapter_header true false c7row (by decide) (by decide)⟩

end Qurani
